import Mathlib

/-!
Shallow embedding of the ESP32-CAM → SH1106 OLED streaming sketch
(`esp32cam_to_oled.ino`) and proofs about its frame-conversion,
health-counter, initialization-retry and setup logic.

Machine integers are modelled as `Nat`.  The only floating-point
arithmetic in the sketch is `x * scaleX` with `scaleX = 96.0f / 128`
(exactly 0.75) and `y * scaleY` with `scaleY = 96.0f / 64` (exactly 1.5):
for `x < 128` and `y < 64` the products `3x/4` and `3y/2` are exactly
representable single-precision values, so the truncating `(int)` cast
yields exactly the natural-number floor divisions used below.
-/

namespace EspCamOled

/-- Build-time constant: target bitmap width (`#define BMP_W 128`). -/
def BMP_W : ℕ := 128

/-- Build-time constant: target bitmap height (`#define BMP_H 64`). -/
def BMP_H : ℕ := 64

/-- Build-time constant: brightness threshold (`#define BRIGHTNESS_THRESHOLD 64`). -/
def BRIGHTNESS_THRESHOLD : ℕ := 64

/-- Build-time constant: maximum camera-init attempts (`#define MAX_RETRIES 5`). -/
def MAX_RETRIES : ℕ := 5

/-- Build-time constant: frame pacing interval (`#define FRAME_DELAY_MS 50`). -/
def FRAME_DELAY_MS : ℕ := 50

/-- Source column index for destination column `x`:
`int srcX = (int)(x * scaleX); if (srcX >= 96) srcX = 95;`
with `scaleX = 96.0f / BMP_W` (the float product is exact, see module header). -/
def srcXof (x : ℕ) : ℕ :=
  if 96 ≤ x * 96 / BMP_W then 95 else x * 96 / BMP_W

/-- Source row index for destination row `y`:
`int srcY = (int)(y * scaleY); if (srcY >= 96) srcY = 95;`
with `scaleY = 96.0f / BMP_H` (the float product is exact, see module header). -/
def srcYof (y : ℕ) : ℕ :=
  if 96 ≤ y * 96 / BMP_H then 95 else y * 96 / BMP_H

/-- Pixel formats of `esp_camera.h` that the sketch distinguishes. -/
inductive PixFormat where
  | GRAYSCALE
  | JPEG
  | RGB565
  | YUV422
  deriving DecidableEq, Repr

/-- Camera frame buffer `camera_fb_t`: declared dimensions, pixel format,
`len` (the byte count field) and `buf` modelled as an index → byte function
(the C field is a pointer; a null pointer is subsumed by `Option CameraFB`
at the call sites together with `len = 0`). -/
structure CameraFB where
  width : ℕ
  height : ℕ
  format : PixFormat
  len : ℕ
  gray : ℕ → ℕ

/-- Intensity the conversion loop samples for destination pixel `(x, y)`:
`gray[srcRow + srcX]` with `srcRow = srcY * 96`. -/
def samplePix (gray : ℕ → ℕ) (x y : ℕ) : ℕ :=
  gray (srcYof y * 96 + srcXof x)

/-- Condition under which the loop body sets a destination bit:
`if (pix > threshold)`. -/
def pixelLit (gray : ℕ → ℕ) (t x y : ℕ) : Bool :=
  decide (t < samplePix gray x y)

/-- One iteration of the inner conversion loop at destination pixel `(x, y)`:
when lit, OR bit `7 - (x & 7)` into byte `(y * BMP_W + x) >> 3` of the buffer
(the buffer is a byte-index → byte-value function). -/
def writePixel (gray : ℕ → ℕ) (t : ℕ) (buf : ℕ → ℕ) (y x : ℕ) : ℕ → ℕ :=
  if pixelLit gray t x y then
    fun j =>
      if j = (y * BMP_W + x) / 8 then
        buf ((y * BMP_W + x) / 8) ||| (1 <<< (7 - x % 8))
      else buf j
  else buf

/-- The inner `for (x = 0; x < BMP_W; x++)` loop of `convertFrameToBitmap`
for one destination row `y`. -/
def convRow (gray : ℕ → ℕ) (t y : ℕ) (buf : ℕ → ℕ) : ℕ → ℕ :=
  (List.range BMP_W).foldl (fun b x => writePixel gray t b y x) buf

/-- The outer `for (y = 0; y < BMP_H; y++)` loop of `convertFrameToBitmap`. -/
def convAll (gray : ℕ → ℕ) (t : ℕ) (buf : ℕ → ℕ) : ℕ → ℕ :=
  (List.range BMP_H).foldl (fun b y => convRow gray t y b) buf

/-- `convertFrameToBitmap(const camera_fb_t* fb)`: returns the final contents
of `bitmapBuffer` given its prior contents `buf₀`.  A null `fb` (or null
`fb->buf`, subsumed here by a frame with `len = 0`) or `fb->len < 96 * 96`
returns early, leaving the buffer untouched; otherwise the buffer is
`memset` to zero and the double loop runs with the fixed threshold. -/
def convertFrameToBitmap (fb : Option CameraFB) (buf₀ : ℕ → ℕ) : ℕ → ℕ :=
  match fb with
  | none => buf₀
  | some f =>
      if f.len < 96 * 96 then buf₀
      else convAll f.gray BRIGHTNESS_THRESHOLD (fun _ => 0)

/-- Proof-internal projection of one `writePixel` step onto a single byte
index `j`: the numeric update that the step performs at `j`. -/
def byteStep (gray : ℕ → ℕ) (t j y : ℕ) (a x : ℕ) : ℕ :=
  if j = (y * BMP_W + x) / 8 ∧ pixelLit gray t x y = true then
    a ||| (1 <<< (7 - x % 8))
  else a

/-- Health counters of the sketch: the globals `frameCount` and `errorCount`. -/
structure HealthCounters where
  frameCount : ℕ
  errorCount : ℕ
  deriving DecidableEq

/-- Display and frame-buffer collaborator calls that `processFrame` can issue,
in program order. -/
inductive DispEv where
  | ReleaseFrame
  | ClearDisplay
  | DrawBitmap
  | Flush
  deriving DecidableEq

/-- Result of one `processFrame()` call: the returned Bool, the updated
counters, the final `bitmapBuffer` contents and the collaborator calls made. -/
structure ProcResult where
  success : Bool
  counters : HealthCounters
  buffer : ℕ → ℕ
  events : List DispEv

/-- Validation check of `processFrame`:
`fb->width != 96 || fb->height != 96 || fb->format != PIXFORMAT_GRAYSCALE`
(negated: the frame passes). -/
def frameValid (f : CameraFB) : Bool :=
  decide (f.width = 96) && decide (f.height = 96) &&
    decide (f.format = PixFormat.GRAYSCALE)

/-- `bool processFrame()`: early-returns `false` when the camera is not
initialized; on `esp_camera_fb_get()` returning null increments `errorCount`;
on validation mismatch returns the frame and increments `errorCount`;
otherwise converts, returns the frame, clears, draws and flushes the display
and increments `frameCount`. -/
def processFrame (camInit : Bool) (fbOpt : Option CameraFB)
    (s : HealthCounters) (buf₀ : ℕ → ℕ) : ProcResult :=
  if !camInit then ⟨false, s, buf₀, []⟩
  else
    match fbOpt with
    | none => ⟨false, ⟨s.frameCount, s.errorCount + 1⟩, buf₀, []⟩
    | some fb =>
        if !frameValid fb then
          ⟨false, ⟨s.frameCount, s.errorCount + 1⟩, buf₀, [DispEv.ReleaseFrame]⟩
        else
          ⟨true, ⟨s.frameCount + 1, s.errorCount⟩,
            convertFrameToBitmap (some fb) buf₀,
            [DispEv.ReleaseFrame, DispEv.ClearDisplay, DispEv.DrawBitmap,
             DispEv.Flush]⟩

/-- Error rate expression of `loop()`:
`(float)errorCount / (frameCount + errorCount) * 100.0f`, modelled over ℚ. -/
def errorRateLoop (frameCount errorCount : ℕ) : ℚ :=
  (errorCount : ℚ) / ((frameCount : ℚ) + (errorCount : ℚ)) * 100

/-- Guard under which `loop()` computes and prints the error rate:
`frameCount > 0 && frameCount % 100 == 0`. -/
def statsDue (frameCount : ℕ) : Bool :=
  decide (0 < frameCount) && decide (frameCount % 100 = 0)

/-- Modelled from the spec: the Health Monitor contract function
`errorRatePercent()` (the sketch has no such named function; `loop()` inlines
the rate expression under the `statsDue` guard, so the both-counters-zero
case is fixed only by the spec, which defines it as 0). -/
def errorRatePercent (f e : ℕ) : ℚ :=
  if f = 0 ∧ e = 0 then 0 else (e : ℚ) / ((f : ℚ) + (e : ℚ)) * 100

/-- Tail of `loop()`: `if (errorCount > 1000) errorCount = 0;`. -/
def loopTail (s : HealthCounters) : HealthCounters :=
  if 1000 < s.errorCount then ⟨s.frameCount, 0⟩ else s

/-- Sensor-facing actions taken by `initCamera()`, in program order. -/
inductive CamEv where
  | PowerAssert
  | PowerDeassert
  | SettleDelay (ms : ℕ)
  | ConfigRequest (attempt : ℕ)
  | InterDelay (ms : ℕ)
  | Deinit
  deriving DecidableEq

/-- Progressive inter-attempt backoff of `initCamera()`:
`delay(attempt * 1000)`. -/
def interAttemptDelay (attempt : ℕ) : ℕ := attempt * 1000

/-- The retry loop of `initCamera()`, abstracted over the outcome
`oc : attempt index → Bool` of each `esp_camera_init` call: returns whether
some attempt succeeded and how many attempts were made.  `a` is the current
attempt index, the second argument the number of attempts still allowed
(`MAX_RETRIES - a + 1` at entry). -/
def initLoop (oc : ℕ → Bool) : ℕ → ℕ → Bool × ℕ
  | _, 0 => (false, 0)
  | a, r + 1 =>
      if oc a then (true, 1)
      else
        let rest := initLoop oc (a + 1) r
        (rest.1, rest.2 + 1)

/-- Event trace of the retry loop of `initCamera()`: each attempt issues a
`ConfigRequest`; a failed non-final attempt then performs
`delay(attempt * 1000)`, `esp_camera_deinit()` and `delay(500)`. -/
def initLoopTrace (oc : ℕ → Bool) : ℕ → ℕ → List CamEv
  | _, 0 => []
  | a, r + 1 =>
      CamEv.ConfigRequest a ::
        (if oc a then []
         else
           (if r = 0 then []
            else [CamEv.InterDelay (interAttemptDelay a), CamEv.Deinit,
                  CamEv.SettleDelay 500]) ++ initLoopTrace oc (a + 1) r)

/-- `bool initCamera()`: result of the attempt loop starting at attempt 1
with `MAX_RETRIES` attempts allowed. -/
def initCamera (oc : ℕ → Bool) : Bool × ℕ := initLoop oc 1 MAX_RETRIES

/-- Full sensor-facing event trace of `initCamera()`: one power cycle
(`digitalWrite(PWDN, HIGH); delay(100); digitalWrite(PWDN, LOW); delay(100)`)
before the retry loop. -/
def initCameraTrace (oc : ℕ → Bool) : List CamEv :=
  [CamEv.PowerAssert, CamEv.SettleDelay 100, CamEv.PowerDeassert,
   CamEv.SettleDelay 100] ++ initLoopTrace oc 1 MAX_RETRIES

/-- Terminal control-flow outcomes of `setup()`. -/
inductive SetupOutcome where
  | HaltedDisplayInitFail
  | FatalCameraCycle
  | StreamingLoop
  deriving DecidableEq

/-- Result of `setup()`: where control ends up, whether `initCamera()` was
ever called, and whether the failed-probe warning was printed. -/
structure SetupResult where
  outcome : SetupOutcome
  cameraAttempted : Bool
  probeWarned : Bool
  deriving DecidableEq

/-- `void setup()`, abstracted over the I2C probe result
(`Wire.endTransmission() == 0`), the display driver init result
(`display.begin(OLED_ADDR)`) and the camera attempt outcomes.  The probe
result is only printed (`probeWarned`); control continues to `display.begin`
regardless.  A failed `display.begin` enters `while (true) { delay; print }`
without ever calling `initCamera()`; a failed `initCamera()` enters the
fatal status cycle; otherwise control falls through to `loop()`. -/
def setup (probeOk displayBeginOk : Bool) (oc : ℕ → Bool) : SetupResult :=
  if !displayBeginOk then
    ⟨SetupOutcome.HaltedDisplayInitFail, false, !probeOk⟩
  else if !(initCamera oc).1 then
    ⟨SetupOutcome.FatalCameraCycle, true, !probeOk⟩
  else
    ⟨SetupOutcome.StreamingLoop, true, !probeOk⟩

theorem writePixel_at (gray : ℕ → ℕ) (t : ℕ) (buf : ℕ → ℕ) (y x j : ℕ) :
    writePixel gray t buf y x j = byteStep gray t j y (buf j) x := by
  unfold writePixel byteStep
  cases hl : pixelLit gray t x y with
  | false => simp [hl]
  | true =>
      simp only [hl, if_true, and_true]
      by_cases hj : j = (y * BMP_W + x) / 8
      · rw [if_pos hj, if_pos hj, hj]
      · rw [if_neg hj, if_neg hj]

theorem foldl_writePixel_at (gray : ℕ → ℕ) (t y : ℕ) :
    ∀ (xs : List ℕ) (buf : ℕ → ℕ) (j : ℕ),
      (xs.foldl (fun b x => writePixel gray t b y x) buf) j
        = xs.foldl (byteStep gray t j y) (buf j) := by
  intro xs
  induction xs with
  | nil => intro buf j; rfl
  | cons x xs ih =>
      intro buf j
      simp only [List.foldl_cons]
      rw [ih, writePixel_at]

theorem foldl_byteStep_id (gray : ℕ → ℕ) (t j y : ℕ) :
    ∀ (xs : List ℕ) (v : ℕ),
      (∀ x ∈ xs, j ≠ (y * BMP_W + x) / 8) →
      xs.foldl (byteStep gray t j y) v = v := by
  intro xs
  induction xs with
  | nil => intro v _; rfl
  | cons x xs ih =>
      intro v h
      simp only [List.foldl_cons]
      have hx : j ≠ (y * BMP_W + x) / 8 := h x (List.mem_cons_self x xs)
      have hstep : byteStep gray t j y v x = v := by
        unfold byteStep
        rw [if_neg]
        intro hc
        exact hx hc.1
      rw [hstep]
      exact ih v fun z hz => h z (List.mem_cons_of_mem x hz)

theorem foldl_byteStep_testBit (gray : ℕ → ℕ) (t j y n : ℕ) :
    ∀ (xs : List ℕ) (v : ℕ),
      (xs.foldl (byteStep gray t j y) v).testBit n
        = (v.testBit n
            || xs.any fun x =>
                 decide (j = (y * BMP_W + x) / 8) && pixelLit gray t x y
                   && decide (7 - x % 8 = n)) := by
  intro xs
  induction xs with
  | nil => intro v; simp
  | cons x xs ih =>
      intro v
      simp only [List.foldl_cons, List.any_cons]
      rw [ih]
      by_cases h1 : j = (y * BMP_W + x) / 8
      · cases h2 : pixelLit gray t x y with
        | false =>
            have hstep : byteStep gray t j y v x = v := by
              unfold byteStep
              rw [if_neg]
              intro hc
              rw [h2] at hc
              exact Bool.false_ne_true hc.2
            rw [hstep]
            simp [h2]
        | true =>
            have hstep : byteStep gray t j y v x = v ||| (1 <<< (7 - x % 8)) := by
              unfold byteStep
              rw [if_pos ⟨h1, h2⟩]
            rw [hstep]
            simp only [Nat.testBit_or, Nat.one_shiftLeft, Nat.testBit_two_pow]
            simp [h1, h2, Bool.or_assoc]
      · have hstep : byteStep gray t j y v x = v := by
          unfold byteStep
          rw [if_neg]
          intro hc
          exact h1 hc.1
        rw [hstep]
        simp [h1]

theorem convRow_at (gray : ℕ → ℕ) (t y : ℕ) (buf : ℕ → ℕ) (j : ℕ) :
    convRow gray t y buf j
      = (List.range BMP_W).foldl (byteStep gray t j y) (buf j) :=
  foldl_writePixel_at gray t y (List.range BMP_W) buf j

theorem convAll_at (gray : ℕ → ℕ) (t : ℕ) :
    ∀ (m : ℕ) (buf : ℕ → ℕ) (j : ℕ),
      ((List.range m).foldl (fun b y => convRow gray t y b) buf) j
        = if j / 16 < m then
            (List.range BMP_W).foldl (byteStep gray t j (j / 16)) (buf j)
          else buf j := by
  intro m
  induction m with
  | zero => intro buf j; simp
  | succ m ih =>
      intro buf j
      rw [List.range_succ, List.foldl_append]
      simp only [List.foldl_cons, List.foldl_nil]
      rw [convRow_at, ih]
      have hdiv : ∀ x : ℕ, x < BMP_W → (m * BMP_W + x) / 8 = 16 * m + x / 8 := by
        intro x _
        show (m * 128 + x) / 8 = 16 * m + x / 8
        omega
      rcases lt_trichotomy (j / 16) m with h | h | h
      · rw [if_pos h, if_pos (Nat.lt_succ_of_lt h)]
        apply foldl_byteStep_id
        intro x hx
        rw [List.mem_range] at hx
        have hx128 : x < 128 := hx
        rw [hdiv x hx]
        have hx8 : x / 8 < 16 := by omega
        omega
      · rw [if_neg (by omega), if_pos (by omega), h]
      · rw [if_neg (by omega), if_neg (by omega)]
        apply foldl_byteStep_id
        intro x hx
        rw [List.mem_range] at hx
        have hx128 : x < 128 := hx
        rw [hdiv x hx]
        have hx8 : x / 8 < 16 := by omega
        omega

theorem convAll_zero_testBit (gray : ℕ → ℕ) (t x y : ℕ)
    (hx : x < BMP_W) (hy : y < BMP_H) :
    (convAll gray t (fun _ => 0) ((y * BMP_W + x) / 8)).testBit (7 - x % 8)
      = pixelLit gray t x y := by
  have hxW : x < 128 := hx
  have hyH : y < 64 := hy
  have hj16 : (y * BMP_W + x) / 8 / 16 = y := by
    show (y * 128 + x) / 8 / 16 = y
    have h1 : (y * 128 + x) / 8 = 16 * y + x / 8 := by omega
    have h2 : x / 8 < 16 := by omega
    omega
  unfold convAll
  rw [convAll_at, hj16, if_pos (show y < BMP_H from hy)]
  rw [foldl_byteStep_testBit]
  simp only [Nat.zero_testBit, Bool.false_or]
  cases hl : pixelLit gray t x y with
  | true =>
      apply List.any_eq_true.mpr
      exact ⟨x, List.mem_range.mpr hx, by simp [hl]⟩
  | false =>
      apply List.any_eq_false.mpr
      intro z hz
      rw [List.mem_range] at hz
      intro hc
      simp only [Bool.and_eq_true, decide_eq_true_eq] at hc
      obtain ⟨⟨hbyte, hlit⟩, hbit⟩ := hc
      have hzx : z = x := by
        have hb1 : (y * BMP_W + x) / 8 = (y * BMP_W + z) / 8 := hbyte
        have hb2 : (y * 128 + x) / 8 = (y * 128 + z) / 8 := hb1
        have hmx : x % 8 < 8 := by omega
        have hmz : z % 8 < 8 := by omega
        omega
      rw [hzx] at hlit
      rw [hl] at hlit
      exact Bool.false_ne_true hlit

/-- C1: for every source frame passing the size guard and every destination
pixel (x, y) in range, the bit `convertFrameToBitmap` writes (bit
`7 - x % 8` of byte `(y * BMP_W + x) / 8`) is 1 exactly when the sampled
source intensity is strictly greater than the threshold; in particular an
intensity equal to the threshold yields bit 0. -/
theorem conv_bit_iff_gt_threshold :
    ∀ (f : CameraFB) (buf₀ : ℕ → ℕ) (x y : ℕ),
      x < BMP_W → y < BMP_H → 96 * 96 ≤ f.len →
      ((convertFrameToBitmap (some f) buf₀ ((y * BMP_W + x) / 8)).testBit
          (7 - x % 8)
        = decide (BRIGHTNESS_THRESHOLD < samplePix f.gray x y))
      ∧ (samplePix f.gray x y = BRIGHTNESS_THRESHOLD →
         (convertFrameToBitmap (some f) buf₀ ((y * BMP_W + x) / 8)).testBit
             (7 - x % 8) = false) := by
  intro f buf₀ x y hx hy hlen
  have hmain : convertFrameToBitmap (some f) buf₀
      = convAll f.gray BRIGHTNESS_THRESHOLD (fun _ => 0) := by
    show (if f.len < 96 * 96 then buf₀
        else convAll f.gray BRIGHTNESS_THRESHOLD fun _ => 0)
      = convAll f.gray BRIGHTNESS_THRESHOLD fun _ => 0
    rw [if_neg (Nat.not_lt.mpr hlen)]
  rw [hmain, convAll_zero_testBit f.gray BRIGHTNESS_THRESHOLD x y hx hy]
  constructor
  · rfl
  · intro he
    unfold pixelLit
    rw [he]
    simp

theorem conv_bit_iff_gt_threshold_witness :
    (13 : ℕ) < BMP_W ∧ (5 : ℕ) < BMP_H
    ∧ 96 * 96 ≤ (CameraFB.mk 96 96 PixFormat.GRAYSCALE 9216 (fun _ => 200)).len
    ∧ ((convertFrameToBitmap
          (some (CameraFB.mk 96 96 PixFormat.GRAYSCALE 9216 (fun _ => 200)))
          (fun _ => 0) ((5 * BMP_W + 13) / 8)).testBit (7 - 13 % 8)
        = decide (BRIGHTNESS_THRESHOLD
            < samplePix (CameraFB.mk 96 96 PixFormat.GRAYSCALE 9216
                (fun _ => 200)).gray 13 5)) :=
  ⟨by decide, by decide, by decide,
   (conv_bit_iff_gt_threshold
      (CameraFB.mk 96 96 PixFormat.GRAYSCALE 9216 (fun _ => 200))
      (fun _ => 0) 13 5 (by decide) (by decide) (by decide)).1⟩

/-- C2: for destination coordinates in range, the source indices computed by
the conversion loop equal the clamped floor formulas
`min (x * 96 / 128) 95` and `min (y * 96 / 64) 95`; the last column maps to
source column 95, the last row stays at most 95, and the sampled linear
index never leaves the 96 * 96 source buffer. -/
theorem src_index_clamped :
    (∀ x, x < BMP_W → srcXof x = min (x * 96 / 128) 95)
    ∧ (∀ y, y < BMP_H → srcYof y = min (y * 96 / 64) 95)
    ∧ srcXof 127 = 95
    ∧ srcYof 63 ≤ 95
    ∧ (∀ x, x < BMP_W → ∀ y, y < BMP_H →
        srcYof y * 96 + srcXof x < 96 * 96) := by
  have hX : ∀ x, x < BMP_W → srcXof x = min (x * 96 / 128) 95 := by decide
  have hY : ∀ y, y < BMP_H → srcYof y = min (y * 96 / 64) 95 := by decide
  have hXle : ∀ x, x < BMP_W → srcXof x ≤ 95 := by decide
  have hYle : ∀ y, y < BMP_H → srcYof y ≤ 95 := by decide
  refine ⟨hX, hY, by decide, by decide, ?_⟩
  intro x hx y hy
  have h1 : srcXof x ≤ 95 := hXle x hx
  have h2 : srcYof y ≤ 95 := hYle y hy
  have h3 : srcYof y * 96 ≤ 95 * 96 := Nat.mul_le_mul_right 96 h2
  omega

theorem src_index_clamped_witness :
    (127 : ℕ) < BMP_W ∧ (63 : ℕ) < BMP_H
    ∧ srcXof 127 = min (127 * 96 / 128) 95
    ∧ srcYof 63 = min (63 * 96 / 64) 95
    ∧ srcYof 63 * 96 + srcXof 127 < 96 * 96 :=
  ⟨by decide, by decide,
   src_index_clamped.1 127 (by decide),
   src_index_clamped.2.1 63 (by decide),
   src_index_clamped.2.2.2.2 127 (by decide) 63 (by decide)⟩

/-- C9 counterexample: a call whose frame fails the size guard
(`fb->len < 96 * 96`) returns early and leaves the destination buffer
untouched, so two different initial buffer contents survive to two
different final contents. -/
theorem conv_stale_buffer_cex :
    convertFrameToBitmap
        (some (CameraFB.mk 96 96 PixFormat.GRAYSCALE 0 (fun _ => 200)))
        (fun _ => 0) 0
      ≠ convertFrameToBitmap
          (some (CameraFB.mk 96 96 PixFormat.GRAYSCALE 0 (fun _ => 200)))
          (fun _ => 1) 0 := by
  decide

/-- C9 amended: on every call whose frame passes the size guard
(`96 * 96 ≤ fb->len`) the destination buffer is fully overwritten — any two
initial contents yield identical final contents; a call failing the guard
returns early with the buffer unchanged. -/
theorem conv_overwrite_iff_guard :
    ∀ (f : CameraFB) (buf₀ buf₁ : ℕ → ℕ),
      (96 * 96 ≤ f.len →
        convertFrameToBitmap (some f) buf₀
          = convertFrameToBitmap (some f) buf₁)
      ∧ (f.len < 96 * 96 → convertFrameToBitmap (some f) buf₀ = buf₀) := by
  intro f buf₀ buf₁
  constructor
  · intro h
    show (if f.len < 96 * 96 then buf₀
        else convAll f.gray BRIGHTNESS_THRESHOLD fun _ => 0)
      = if f.len < 96 * 96 then buf₁
        else convAll f.gray BRIGHTNESS_THRESHOLD fun _ => 0
    rw [if_neg (Nat.not_lt.mpr h), if_neg (Nat.not_lt.mpr h)]
  · intro h
    show (if f.len < 96 * 96 then buf₀
        else convAll f.gray BRIGHTNESS_THRESHOLD fun _ => 0) = buf₀
    rw [if_pos h]

theorem conv_overwrite_iff_guard_witness :
    (96 * 96 ≤ (CameraFB.mk 96 96 PixFormat.GRAYSCALE 9216 (fun _ => 200)).len
      ∧ convertFrameToBitmap
          (some (CameraFB.mk 96 96 PixFormat.GRAYSCALE 9216 (fun _ => 200)))
          (fun _ => 0)
        = convertFrameToBitmap
            (some (CameraFB.mk 96 96 PixFormat.GRAYSCALE 9216 (fun _ => 200)))
            (fun _ => 7))
    ∧ ((CameraFB.mk 96 96 PixFormat.GRAYSCALE 0 (fun _ => 200)).len < 96 * 96
      ∧ convertFrameToBitmap
          (some (CameraFB.mk 96 96 PixFormat.GRAYSCALE 0 (fun _ => 200)))
          (fun _ => 7)
        = (fun _ => 7)) :=
  ⟨⟨by decide,
    (conv_overwrite_iff_guard
        (CameraFB.mk 96 96 PixFormat.GRAYSCALE 9216 (fun _ => 200))
        (fun _ => 0) (fun _ => 7)).1 (by decide)⟩,
   ⟨by decide,
    (conv_overwrite_iff_guard
        (CameraFB.mk 96 96 PixFormat.GRAYSCALE 0 (fun _ => 200))
        (fun _ => 7) (fun _ => 0)).2 (by decide)⟩⟩

/-- C3 counterexample: with the camera initialized and frame acquisition
failing, `processFrame` does not increment `frameCount` (it only increments
`errorCount`), refuting the claim that the frame counter increases on every
call. -/
theorem processFrame_counts_cex :
    ¬ ((processFrame true none (HealthCounters.mk 0 0)
          (fun _ => 0)).counters.frameCount = 0 + 1)
    ∧ (processFrame true none (HealthCounters.mk 0 0)
          (fun _ => 0)).counters.errorCount = 0 + 1
    ∧ (processFrame true none (HealthCounters.mk 0 0)
          (fun _ => 0)).success = false := by
  refine ⟨?_, rfl, rfl⟩
  intro h
  exact Nat.zero_ne_one h

/-- C3 amended: with the camera initialized, `frameCount` increases by 1
exactly when the frame succeeds and `errorCount` increases by 1 exactly when
the frame fails (acquisition failure or validation mismatch); the other
counter is unchanged in each case. -/
theorem processFrame_counts :
    ∀ (fbOpt : Option CameraFB) (s : HealthCounters) (buf₀ : ℕ → ℕ),
      ((processFrame true fbOpt s buf₀).success = true →
        (processFrame true fbOpt s buf₀).counters.frameCount
            = s.frameCount + 1
        ∧ (processFrame true fbOpt s buf₀).counters.errorCount
            = s.errorCount)
      ∧ ((processFrame true fbOpt s buf₀).success = false →
        (processFrame true fbOpt s buf₀).counters.frameCount = s.frameCount
        ∧ (processFrame true fbOpt s buf₀).counters.errorCount
            = s.errorCount + 1) := by
  intro fbOpt s buf₀
  cases fbOpt with
  | none => simp [processFrame]
  | some fb =>
      cases h : frameValid fb with
      | false => simp [processFrame, h]
      | true => simp [processFrame, h]

theorem processFrame_counts_witness :
    ((processFrame true
        (some (CameraFB.mk 96 96 PixFormat.GRAYSCALE 9216 (fun _ => 200)))
        (HealthCounters.mk 2 3) (fun _ => 0)).success = true)
    ∧ ((processFrame true
        (some (CameraFB.mk 96 96 PixFormat.GRAYSCALE 9216 (fun _ => 200)))
        (HealthCounters.mk 2 3) (fun _ => 0)).counters.frameCount
          = 2 + 1)
    ∧ ((processFrame true none (HealthCounters.mk 2 3)
          (fun _ => 0)).success = false)
    ∧ ((processFrame true none (HealthCounters.mk 2 3)
          (fun _ => 0)).counters.errorCount = 3 + 1) :=
  ⟨by decide,
   ((processFrame_counts
      (some (CameraFB.mk 96 96 PixFormat.GRAYSCALE 9216 (fun _ => 200)))
      (HealthCounters.mk 2 3) (fun _ => 0)).1 (by decide)).1,
   by decide,
   ((processFrame_counts none (HealthCounters.mk 2 3)
      (fun _ => 0)).2 (by decide)).2⟩

/-- C4: whenever `loop()` computes the error rate (the `statsDue` guard
holds), the rate equals `100 * errorCount / (frameCount + errorCount)` with
a positive denominator and agrees with the spec-modelled
`errorRatePercent`; `errorRatePercent` is 0 when both counters are 0. -/
theorem errorRate_formula :
    ∀ f e : ℕ,
      (statsDue f = true →
        0 < (f : ℚ) + (e : ℚ)
        ∧ errorRateLoop f e = 100 * (e : ℚ) / ((f : ℚ) + (e : ℚ))
        ∧ errorRateLoop f e = errorRatePercent f e)
      ∧ errorRatePercent 0 0 = 0 := by
  intro f e
  constructor
  · intro h
    have hf : 0 < f := by
      have hh := h
      unfold statsDue at hh
      simp only [Bool.and_eq_true, decide_eq_true_eq] at hh
      exact hh.1
    have hfq : 0 < (f : ℚ) := by exact_mod_cast hf
    have heq : 0 ≤ (e : ℚ) := by positivity
    have hpos : 0 < (f : ℚ) + (e : ℚ) := by linarith
    refine ⟨hpos, ?_, ?_⟩
    · unfold errorRateLoop
      ring
    · unfold errorRateLoop errorRatePercent
      rw [if_neg]
      intro hc
      omega
  · unfold errorRatePercent
    simp

theorem errorRate_formula_witness :
    statsDue 100 = true
    ∧ errorRateLoop 100 50
        = 100 * ((50 : ℕ) : ℚ) / (((100 : ℕ) : ℚ) + ((50 : ℕ) : ℚ))
    ∧ errorRateLoop 100 50 = errorRatePercent 100 50 :=
  ⟨by decide,
   ((errorRate_formula 100 50).1 (by decide)).2.1,
   ((errorRate_formula 100 50).1 (by decide)).2.2⟩

/-- C5: at the end of a loop iteration, `errorCount` is reset to 0 exactly
when it exceeds 1000; no reset happens at or below 1000, and `frameCount`
is never changed by this step. -/
theorem errorCount_reset_saturation :
    ∀ s : HealthCounters,
      (1000 < s.errorCount → loopTail s = HealthCounters.mk s.frameCount 0)
      ∧ (s.errorCount ≤ 1000 → loopTail s = s)
      ∧ (loopTail s).frameCount = s.frameCount := by
  intro s
  refine ⟨fun h => ?_, fun h => ?_, ?_⟩
  · unfold loopTail
    rw [if_pos h]
  · unfold loopTail
    rw [if_neg (Nat.not_lt.mpr h)]
  · unfold loopTail
    split
    · rfl
    · rfl

theorem errorCount_reset_saturation_witness :
    1000 < (HealthCounters.mk 3 1001).errorCount
    ∧ loopTail (HealthCounters.mk 3 1001) = HealthCounters.mk 3 0
    ∧ (HealthCounters.mk 4 1000).errorCount ≤ 1000
    ∧ loopTail (HealthCounters.mk 4 1000) = HealthCounters.mk 4 1000 :=
  ⟨by decide,
   (errorCount_reset_saturation (HealthCounters.mk 3 1001)).1 (by decide),
   by decide,
   (errorCount_reset_saturation (HealthCounters.mk 4 1000)).2.1 (by decide)⟩

/-- C10: with the camera initialized, a failed acquisition increments
`errorCount`, acquires nothing and so releases nothing, performs no display
call and leaves the bitmap buffer untouched; a validation mismatch
increments `errorCount`, releases the frame, and likewise performs no
conversion and no display call. -/
theorem processFrame_failure_skips :
    ∀ (s : HealthCounters) (buf₀ : ℕ → ℕ),
      processFrame true none s buf₀
          = ProcResult.mk false (HealthCounters.mk s.frameCount
              (s.errorCount + 1)) buf₀ []
      ∧ (∀ fb : CameraFB, frameValid fb = false →
          processFrame true (some fb) s buf₀
            = ProcResult.mk false (HealthCounters.mk s.frameCount
                (s.errorCount + 1)) buf₀ [DispEv.ReleaseFrame]) := by
  intro s buf₀
  constructor
  · rfl
  · intro fb h
    simp [processFrame, h]

theorem processFrame_failure_skips_witness :
    (processFrame true none (HealthCounters.mk 7 3) (fun _ => 9)
        = ProcResult.mk false (HealthCounters.mk 7 4) (fun _ => 9) [])
    ∧ frameValid (CameraFB.mk 100 96 PixFormat.GRAYSCALE 9216 (fun _ => 0))
        = false
    ∧ (processFrame true
          (some (CameraFB.mk 100 96 PixFormat.GRAYSCALE 9216 (fun _ => 0)))
          (HealthCounters.mk 7 3) (fun _ => 9)
        = ProcResult.mk false (HealthCounters.mk 7 4) (fun _ => 9)
            [DispEv.ReleaseFrame]) :=
  ⟨(processFrame_failure_skips (HealthCounters.mk 7 3) (fun _ => 9)).1,
   by decide,
   (processFrame_failure_skips (HealthCounters.mk 7 3) (fun _ => 9)).2
     (CameraFB.mk 100 96 PixFormat.GRAYSCALE 9216 (fun _ => 0)) (by decide)⟩

theorem initLoop_attempts_le (oc : ℕ → Bool) :
    ∀ (r a : ℕ), (initLoop oc a r).2 ≤ r := by
  intro r
  induction r with
  | zero => intro a; simp [initLoop]
  | succ r ih =>
      intro a
      cases h : oc a with
      | true => simp [initLoop, h]
      | false =>
          simp only [initLoop, h, Bool.false_eq_true, if_false]
          exact Nat.succ_le_succ (ih (a + 1))

theorem initLoop_all_fail (oc : ℕ → Bool) :
    ∀ (r a : ℕ), (∀ k, a ≤ k → k < a + r → oc k = false) →
      initLoop oc a r = (false, r) := by
  intro r
  induction r with
  | zero => intro a _; rfl
  | succ r ih =>
      intro a h
      have ha : oc a = false := h a le_rfl (by omega)
      simp only [initLoop, ha, Bool.false_eq_true, if_false]
      rw [ih (a + 1) fun k hk1 hk2 => h k (by omega) (by omega)]

theorem initLoop_first_success (oc : ℕ → Bool) :
    ∀ (r a k : ℕ), a ≤ k → k < a + r → oc k = true →
      (∀ j, a ≤ j → j < k → oc j = false) →
      initLoop oc a r = (true, k + 1 - a) := by
  intro r
  induction r with
  | zero => intro a k h1 h2 _ _; omega
  | succ r ih =>
      intro a k h1 h2 h3 h4
      by_cases hak : a = k
      · subst hak
        simp only [initLoop, h3, if_true]
        rw [Nat.add_sub_cancel_left]
      · have haf : oc a = false := h4 a le_rfl (by omega)
        simp only [initLoop, haf, Bool.false_eq_true, if_false]
        rw [ih (a + 1) k (by omega) (by omega) h3
              fun j hj1 hj2 => h4 j (by omega) hj2]
        have : k + 1 - (a + 1) + 1 = k + 1 - a := by omega
        rw [this]

theorem initLoopTrace_no_power (oc : ℕ → Bool) :
    ∀ (r a : ℕ), CamEv.PowerAssert ∉ initLoopTrace oc a r
      ∧ CamEv.PowerDeassert ∉ initLoopTrace oc a r := by
  intro r
  induction r with
  | zero => intro a; simp [initLoopTrace]
  | succ r ih =>
      intro a
      cases h : oc a with
      | true => simp [initLoopTrace, h]
      | false =>
          by_cases hr : r = 0
          · subst hr; simp [initLoopTrace, h]
          · constructor
            · simp only [initLoopTrace, h, Bool.false_eq_true, if_false, hr,
                List.mem_cons, List.mem_append]
              intro hc
              rcases hc with hc | hc | hc
              · exact CamEv.noConfusion hc
              · simp at hc
              · exact (ih (a + 1)).1 hc
            · simp only [initLoopTrace, h, Bool.false_eq_true, if_false, hr,
                List.mem_cons, List.mem_append]
              intro hc
              rcases hc with hc | hc | hc
              · exact CamEv.noConfusion hc
              · simp at hc
              · exact (ih (a + 1)).2 hc

/-- C6: `initCamera` makes at most `MAX_RETRIES` attempts; when every
attempt fails it makes exactly `MAX_RETRIES` attempts, returns failure and
`setup` ends in the fatal camera cycle (never streaming), with the full
event trace showing the per-attempt backoff `delay(attempt * 1000)`; when
the first success is at attempt `k` exactly `k` attempts are made and
`setup` proceeds to streaming; the inter-attempt delay grows linearly
(slope 1000 ms per attempt). -/
theorem initCamera_retry_policy :
    ∀ oc : ℕ → Bool,
      (initCamera oc).2 ≤ MAX_RETRIES
      ∧ ((∀ k, k ≤ MAX_RETRIES → 1 ≤ k → oc k = false) →
          initCamera oc = (false, MAX_RETRIES)
          ∧ (setup true true oc).outcome = SetupOutcome.FatalCameraCycle
          ∧ initCameraTrace oc
              = [CamEv.PowerAssert, CamEv.SettleDelay 100,
                 CamEv.PowerDeassert, CamEv.SettleDelay 100,
                 CamEv.ConfigRequest 1, CamEv.InterDelay (interAttemptDelay 1),
                 CamEv.Deinit, CamEv.SettleDelay 500,
                 CamEv.ConfigRequest 2, CamEv.InterDelay (interAttemptDelay 2),
                 CamEv.Deinit, CamEv.SettleDelay 500,
                 CamEv.ConfigRequest 3, CamEv.InterDelay (interAttemptDelay 3),
                 CamEv.Deinit, CamEv.SettleDelay 500,
                 CamEv.ConfigRequest 4, CamEv.InterDelay (interAttemptDelay 4),
                 CamEv.Deinit, CamEv.SettleDelay 500,
                 CamEv.ConfigRequest 5])
      ∧ (∀ k, 1 ≤ k → k ≤ MAX_RETRIES → oc k = true →
          (∀ j, j < k → 1 ≤ j → oc j = false) →
          initCamera oc = (true, k)
          ∧ (setup true true oc).outcome = SetupOutcome.StreamingLoop)
      ∧ (∀ a, interAttemptDelay (a + 1) = interAttemptDelay a + 1000) := by
  intro oc
  refine ⟨initLoop_attempts_le oc MAX_RETRIES 1, ?_, ?_, ?_⟩
  · intro h
    have hall : initCamera oc = (false, MAX_RETRIES) := by
      apply initLoop_all_fail oc MAX_RETRIES 1
      intro k hk1 hk2
      have hM : MAX_RETRIES = 5 := rfl
      exact h k (by omega) hk1
    refine ⟨hall, ?_, ?_⟩
    · simp [setup, hall]
    · have h1 : oc 1 = false := h 1 (by decide) (by decide)
      have h2 : oc 2 = false := h 2 (by decide) (by decide)
      have h3 : oc 3 = false := h 3 (by decide) (by decide)
      have h4 : oc 4 = false := h 4 (by decide) (by decide)
      have h5 : oc 5 = false := h 5 (by decide) (by decide)
      show [CamEv.PowerAssert, CamEv.SettleDelay 100, CamEv.PowerDeassert,
              CamEv.SettleDelay 100] ++ initLoopTrace oc 1 5 = _
      simp [initLoopTrace, h1, h2, h3, h4, h5]
  · intro k hk1 hk2 hk3 hmin
    have hfirst : initCamera oc = (true, k) := by
      have hloop := initLoop_first_success oc MAX_RETRIES 1 k hk1
        (by have hM : MAX_RETRIES = 5 := rfl; omega) hk3
        (fun j hj1 hj2 => hmin j hj2 hj1)
      have hk : k + 1 - 1 = k := by omega
      rw [hk] at hloop
      exact hloop
    exact ⟨hfirst, by simp [setup, hfirst]⟩
  · intro a
    unfold interAttemptDelay
    ring

theorem initCamera_retry_policy_witness :
    initCamera (fun _ => false) = (false, MAX_RETRIES)
    ∧ (setup true true (fun _ => false)).outcome
        = SetupOutcome.FatalCameraCycle
    ∧ initCamera (fun k => decide (k = 3)) = (true, 3)
    ∧ (setup true true (fun k => decide (k = 3))).outcome
        = SetupOutcome.StreamingLoop :=
  ⟨((initCamera_retry_policy (fun _ => false)).2.1 fun _ _ _ => rfl).1,
   ((initCamera_retry_policy (fun _ => false)).2.1 fun _ _ _ => rfl).2.1,
   ((initCamera_retry_policy (fun k => decide (k = 3))).2.2.1 3
      (by decide) (by decide) (by decide) (by decide)).1,
   ((initCamera_retry_policy (fun k => decide (k = 3))).2.2.1 3
      (by decide) (by decide) (by decide) (by decide)).2⟩

/-- C7 counterexample: in the all-fail run, attempt 2's configuration
request (trace index 8) is not preceded by its own power cycle — the three
events strictly between the first and second configuration requests contain
no assertion of the power-down control, and the whole trace contains exactly
one such assertion for its five attempts. -/
theorem initCamera_power_cycle_cex :
    ((initCameraTrace (fun _ => false))[4]? = some (CamEv.ConfigRequest 1))
    ∧ ((initCameraTrace (fun _ => false))[8]? = some (CamEv.ConfigRequest 2))
    ∧ CamEv.PowerAssert ∉ ((initCameraTrace (fun _ => false)).drop 5).take 3
    ∧ (initCameraTrace (fun _ => false)).count CamEv.PowerAssert = 1
    ∧ (initCameraTrace (fun _ => false)).count (CamEv.ConfigRequest 2) = 1 := by
  decide

/-- C7 amended: `initCamera` power-cycles the sensor exactly once per
invocation — the assert/deassert pair with its fixed settle delays occupies
the first four trace events, before the first configuration request — and
the retry loop itself never asserts or deasserts the power-down control
again. -/
theorem initCamera_power_cycle_once :
    ∀ oc : ℕ → Bool,
      (initCameraTrace oc).count CamEv.PowerAssert = 1
      ∧ (initCameraTrace oc).count CamEv.PowerDeassert = 1
      ∧ (initCameraTrace oc).take 4
          = [CamEv.PowerAssert, CamEv.SettleDelay 100, CamEv.PowerDeassert,
             CamEv.SettleDelay 100]
      ∧ (∀ a r, CamEv.PowerAssert ∉ initLoopTrace oc a r
          ∧ CamEv.PowerDeassert ∉ initLoopTrace oc a r) := by
  intro oc
  have hno := initLoopTrace_no_power oc
  refine ⟨?_, ?_, rfl, fun a r => hno r a⟩
  · unfold initCameraTrace
    rw [List.count_append, List.count_eq_zero.mpr (hno MAX_RETRIES 1).1]
    decide
  · unfold initCameraTrace
    rw [List.count_append, List.count_eq_zero.mpr (hno MAX_RETRIES 1).2]
    decide

theorem initCamera_power_cycle_once_witness :
    CamEv.PowerAssert ∉ initLoopTrace (fun _ => false) 1 MAX_RETRIES
    ∧ (initCameraTrace (fun _ => false)).count CamEv.PowerAssert = 1 :=
  ⟨((initCamera_power_cycle_once (fun _ => false)).2.2.2 1 MAX_RETRIES).1,
   (initCamera_power_cycle_once (fun _ => false)).1⟩

/-- C8 counterexample: a failed presence probe at the display bus address is
not fatal — with the probe failing but the driver init succeeding, `setup`
still calls `initCamera` and proceeds all the way to streaming, only
printing the probe warning. -/
theorem setup_probe_fail_cex :
    (setup false true (fun _ => true)).cameraAttempted = true
    ∧ (setup false true (fun _ => true)).outcome = SetupOutcome.StreamingLoop
    ∧ (setup false true (fun _ => true)).probeWarned = true := by
  decide

/-- C8 amended: a failed display driver init (`display.begin`) is fatal with
zero retries — `setup` halts permanently and never attempts camera
initialization; the presence-probe result is only reported (a diagnostic
warning) and has no effect on control flow. -/
theorem setup_display_fail_halts :
    ∀ (probeOk : Bool) (oc : ℕ → Bool),
      (setup probeOk false oc).outcome = SetupOutcome.HaltedDisplayInitFail
      ∧ (setup probeOk false oc).cameraAttempted = false
      ∧ (∀ b, (setup probeOk b oc).outcome = (setup true b oc).outcome
          ∧ (setup probeOk b oc).cameraAttempted
              = (setup true b oc).cameraAttempted)
      ∧ (setup false true oc).probeWarned = true := by
  intro p oc
  refine ⟨rfl, rfl, ?_, ?_⟩
  · intro b
    cases b with
    | false => exact ⟨rfl, rfl⟩
    | true =>
        cases h : (initCamera oc).1 with
        | false => simp [setup, h]
        | true => simp [setup, h]
  · cases h : (initCamera oc).1 with
    | false => simp [setup, h]
    | true => simp [setup, h]

end EspCamOled
